import Mathlib

/-!
Verification of the feature-flag evaluation engine of `glowcam-api`
(`src/services/flag.service.ts`), as a shallow embedding in Lean 4.

JavaScript runtime values that flow through the engine (jsonb columns,
evaluation contexts, condition operands) are modelled by the inductive
`JsValue`.  JavaScript numbers are modelled as integers in stored values
(the configurations this engine stores are integral); string-to-number
coercion (`Number(...)`) produces rationals, so fractional numeric
literals in strings are still compared exactly.  `undefined` is modelled
as `Option.none` at the points where the source distinguishes it.
-/

namespace FlagService

/-- JSON-like runtime value (jsonb payloads, context attributes, operands). -/
inductive JsValue where
  | null
  | bool (b : Bool)
  | num (n : Int)
  | str (s : String)
  | arr (elems : List JsValue)
  | obj (fields : List (String × JsValue))

mutual

/-- JavaScript `String(v)` coercion for the values of `JsValue`.
Arrays render as their elements joined by commas (with `null` elements
rendering as the empty string, as `Array.prototype.join` does); objects
render as `"[object Object]"`. -/
def toStr : JsValue → String
  | .null => "null"
  | .bool b => cond b "true" "false"
  | .num n => toString n
  | .str s => s
  | .arr elems => String.intercalate "," (arrayElemStrs elems)
  | .obj _ => "[object Object]"

/-- Element renderings used by `toStr` on arrays (`Array.prototype.join`). -/
def arrayElemStrs : List JsValue → List String
  | [] => []
  | v :: rest =>
    (match v with
     | .null => ""
     | w => toStr w) :: arrayElemStrs rest

end

/-- The whitespace characters trimmed by JavaScript `Number(string)`. -/
def isJsWhitespace (c : Char) : Bool :=
  c = ' ' || c = '\t' || c = '\n' || c = '\r'

/-- Decimal digit run to a natural number. -/
def digitsToNat (ds : List Char) : Nat :=
  ds.foldl (fun a c => a * 10 + (c.toNat - '0'.toNat)) 0

/-- Parse an unsigned decimal literal `digits [. digits]` (either part may
be empty but not both), requiring the whole input to be consumed.
This models the plain decimal grammar of JavaScript string-to-number
conversion; exponent, hexadecimal, and `Infinity` forms do not occur in
flag configurations and are not modelled. -/
def parseDecimal (cs : List Char) : Option ℚ :=
  let intDigits := cs.takeWhile Char.isDigit
  let rest := cs.dropWhile Char.isDigit
  match rest with
  | [] =>
    if intDigits.isEmpty then none
    else some (digitsToNat intDigits : ℚ)
  | '.' :: fr =>
    let frDigits := fr.takeWhile Char.isDigit
    let rest2 := fr.dropWhile Char.isDigit
    if !rest2.isEmpty then none
    else if intDigits.isEmpty && frDigits.isEmpty then none
    else some ((digitsToNat intDigits : ℚ)
      + (digitsToNat frDigits : ℚ) / ((10 : ℚ) ^ frDigits.length))
  | _ => none

/-- JavaScript `Number(string)`: trim whitespace, empty string is `0`,
otherwise an optionally signed decimal literal; `none` models `NaN`. -/
def jsStringToNum (s : String) : Option ℚ :=
  let cs := (s.data.dropWhile isJsWhitespace).reverse
  let cs := (cs.dropWhile isJsWhitespace).reverse
  match cs with
  | [] => some 0
  | '+' :: rest => parseDecimal rest
  | '-' :: rest => (parseDecimal rest).map (fun q => -q)
  | _ => parseDecimal cs

/-- JavaScript `Number(v)` coercion; `none` models `NaN`.  Arrays coerce
through their string form (`Number(String(arr))`), objects give `NaN`. -/
def toNum : JsValue → Option ℚ
  | .null => some 0
  | .bool b => some (cond b 1 0)
  | .num n => some (n : ℚ)
  | .str s => jsStringToNum s
  | .arr elems => jsStringToNum (toStr (.arr elems))
  | .obj _ => none

-- ── Semver helpers (flag.service.ts: parseSemver / compareSemver) ──────────

/-- Parsed `major.minor.patch` triplet (interface `SemverParts`). -/
structure SemverParts where
  major : Nat
  minor : Nat
  patch : Nat
deriving DecidableEq, Repr

/-- `parseSemver`: match the input against `/^(\d+)\.(\d+)\.(\d+)/`
(leading triplet; any suffix after the patch digits is ignored) and read
the three digit groups as numbers. -/
def parseSemver (version : String) : Option SemverParts :=
  let cs := version.data
  let d1 := cs.takeWhile Char.isDigit
  let r1 := cs.dropWhile Char.isDigit
  if d1.isEmpty then none
  else
    match r1 with
    | '.' :: cs2 =>
      let d2 := cs2.takeWhile Char.isDigit
      let r2 := cs2.dropWhile Char.isDigit
      if d2.isEmpty then none
      else
        match r2 with
        | '.' :: cs3 =>
          let d3 := cs3.takeWhile Char.isDigit
          if d3.isEmpty then none
          else some ⟨digitsToNat d1, digitsToNat d2, digitsToNat d3⟩
        | _ => none
    | _ => none

/-- `compareSemver`: `-1` if `a < b`, `0` if equal, `1` if `a > b`;
when either side fails to parse, fall back to lexicographic string
comparison (the source's `a < b ? -1 : a > b ? 1 : 0`). -/
def compareSemver (a b : String) : Int :=
  match parseSemver a, parseSemver b with
  | some aParts, some bParts =>
    if aParts.major ≠ bParts.major then
      (if aParts.major < bParts.major then -1 else 1)
    else if aParts.minor ≠ bParts.minor then
      (if aParts.minor < bParts.minor then -1 else 1)
    else if aParts.patch ≠ bParts.patch then
      (if aParts.patch < bParts.patch then -1 else 1)
    else 0
  | _, _ =>
    if a < b then -1 else if b < a then 1 else 0

-- ── Condition matching (flag.service.ts: getContextValue / matchesSingleCondition) ──

/-- One targeting condition (interface `FlagCondition`).  The `operator`
is kept as a string: conditions arrive from an unchecked jsonb cast, so
at run time the operator may be any string (the switch has a default). -/
structure FlagCondition where
  field : String
  operator : String
  value : JsValue

/-- The evaluation context is a JavaScript object: a field map. -/
def FlagEvaluationContext := List (String × JsValue)

/-- Property lookup on an object's field map (first binding wins, as
JavaScript objects have unique keys). -/
def lookupField (fields : List (String × JsValue)) (key : String) : Option JsValue :=
  (fields.find? (fun e => e.1 = key)).map (fun e => e.2)

/-- String indexing on an array (`arr[part]`): canonical numeric indices
resolve to elements, `"length"` to the length; other property names of
`Array.prototype` are not modelled (no flag configuration uses them). -/
def arrIndex (elems : List JsValue) (part : String) : Option JsValue :=
  if part = "length" then some (.num elems.length)
  else
    match part.toNat? with
    | some i => if toString i = part then elems.get? i else none
    | none => none

/-- The loop body of `getContextValue`: walk the remaining path segments
from the current value (`none` models `undefined`).  Each step returns
`undefined` when the current value is `null`/`undefined` or not of
object type, otherwise indexes into it. -/
def walkPath : Option JsValue → List String → Option JsValue
  | cur, [] => cur
  | none, _ :: _ => none
  | some .null, _ :: _ => none
  | some (.obj fields), part :: rest => walkPath (lookupField fields part) rest
  | some (.arr elems), part :: rest => walkPath (arrIndex elems part) rest
  | some _, _ :: _ => none

/-- `getContextValue`: resolve a dotted field path against the context. -/
def getContextValue (context : FlagEvaluationContext) (field : String) : Option JsValue :=
  walkPath (some (.obj context)) (field.splitOn ".")

/-- A resolved context value that the matcher treats as missing:
`undefined` or `null` (the source's
`contextValue === undefined || contextValue === null` test). -/
def isAbsent : Option JsValue → Bool
  | none => true
  | some .null => true
  | some _ => false

/-- The JavaScript `RegExp` facility, which is external to the engine:
compiling a pattern either fails (`none`) or yields a matcher.  The
engine only ever observes compile success/failure and the boolean test. -/
def RegexEngine : Type := String → Option (String → Bool)

/-- Substring test on character lists: does the first list start with the
second?  (`String.prototype.includes` support.) -/
def listStartsWith : List Char → List Char → Bool
  | _, [] => true
  | [], _ :: _ => false
  | c :: cs, d :: ds => c = d && listStartsWith cs ds

/-- Substring test on character lists (JavaScript `includes`). -/
def listHasSubstring (hay needle : List Char) : Bool :=
  listStartsWith hay needle ||
    (match hay with
     | [] => false
     | _ :: t => listHasSubstring t needle)

/-- Numeric comparison after `Number()` coercion of both sides; any
comparison involving `NaN` (`none`) is false. -/
def numCompare (test : ℚ → ℚ → Bool) : Option ℚ → Option ℚ → Bool
  | some x, some y => test x y
  | _, _ => false

/-- The shared shape of the `gt`/`gte`/`lt`/`lte` cases: when both sides
are strings and both parse as semver, decide by the sign of
`compareSemver`; otherwise coerce both sides with `Number()` and compare
numerically. -/
def orderingMatch (semTest : Int → Bool) (numTest : ℚ → ℚ → Bool)
    (cv condv : JsValue) : Bool :=
  match cv, condv with
  | .str s, .str t =>
    if (parseSemver s).isSome && (parseSemver t).isSome then
      semTest (compareSemver s t)
    else numCompare numTest (toNum (.str s)) (toNum (.str t))
  | _, _ => numCompare numTest (toNum cv) (toNum condv)

/-- The `switch` of `matchesSingleCondition` for a present context
value, rendered as the equivalent literal-comparison chain; an unknown
operator falls through to `false` (the switch's `default`). -/
def matchesPresent (eng : RegexEngine) (cv : JsValue)
    (condition : FlagCondition) : Bool :=
    let op := condition.operator
    let condv := condition.value
    if op = "eq" then toStr cv = toStr condv
    else if op = "neq" then !(toStr cv = toStr condv : Bool)
    else if op = "gt" then
      orderingMatch (fun r => decide (0 < r)) (fun x y => decide (y < x)) cv condv
    else if op = "gte" then
      orderingMatch (fun r => decide (0 ≤ r)) (fun x y => decide (y ≤ x)) cv condv
    else if op = "lt" then
      orderingMatch (fun r => decide (r < 0)) (fun x y => decide (x < y)) cv condv
    else if op = "lte" then
      orderingMatch (fun r => decide (r ≤ 0)) (fun x y => decide (x ≤ y)) cv condv
    else if op = "in" then
      match condv with
      | .arr elems => (elems.map toStr).contains (toStr cv)
      | _ => false
    else if op = "not_in" then
      match condv with
      | .arr elems => !(elems.map toStr).contains (toStr cv)
      | _ => true
    else if op = "contains" then
      listHasSubstring (toStr cv).data (toStr condv).data
    else if op = "regex" then
      match eng (toStr condv) with
      | none => false
      | some test => test (toStr cv)
    else false

/-- `matchesSingleCondition`: the source first returns early on
`undefined`/`null` context values (only `neq` and `not_in` succeed
there), then dispatches on the operator.  When `isAbsent` is false the
context value is `some` of a non-`null` value, so the `.getD .null`
default is never consulted. -/
def matchesSingleCondition (eng : RegexEngine) (contextValue : Option JsValue)
    (condition : FlagCondition) : Bool :=
  if isAbsent contextValue then
    condition.operator = "neq" || condition.operator = "not_in"
  else
    matchesPresent eng (contextValue.getD .null) condition

/-- `matchesConditions`: every condition must match (AND; an empty list
is vacuously true, as is a missing `conditions` payload). -/
def matchesConditions (eng : RegexEngine) (context : FlagEvaluationContext)
    (conditions : List FlagCondition) : Bool :=
  conditions.all (fun condition =>
    matchesSingleCondition eng (getContextValue context condition.field) condition)

-- ── Rollout hashing ─────────────────────────────────────────────────────────

/-- UTF-8 byte encoding of one character, as natural numbers. -/
def charUtf8 (c : Char) : List Nat :=
  let n := c.toNat
  if n < 0x80 then [n]
  else if n < 0x800 then [0xC0 + n / 64, 0x80 + n % 64]
  else if n < 0x10000 then
    [0xE0 + n / 4096, 0x80 + n / 64 % 64, 0x80 + n % 64]
  else
    [0xF0 + n / 262144, 0x80 + n / 4096 % 64, 0x80 + n / 64 % 64, 0x80 + n % 64]

/-- UTF-8 bytes of a string. -/
def utf8Bytes (s : String) : List Nat :=
  (s.data.map charUtf8).flatten

/-- 32-bit left rotation on naturals below `2 ^ 32`. -/
def rotl32 (x r : Nat) : Nat :=
  ((x <<< r) ||| (x >>> (32 - r))) % 2 ^ 32

/-- MurmurHash3 x86 32-bit body: mix each 4-byte little-endian block into
the running state, then fold the 1–3 byte tail. -/
def murmurBody : Nat → List Nat → Nat
  | h, b0 :: b1 :: b2 :: b3 :: rest =>
    let k := b0 + b1 * 256 + b2 * 65536 + b3 * 16777216
    let k := (k * 0xcc9e2d51) % 2 ^ 32
    let k := rotl32 k 15
    let k := (k * 0x1b873593) % 2 ^ 32
    let h := h ^^^ k
    let h := rotl32 h 13
    let h := (h * 5 + 0xe6546b64) % 2 ^ 32
    murmurBody h rest
  | h, [] => h
  | h, tail =>
    let k := (tail.enum.map (fun p => p.2 * 256 ^ p.1)).sum
    let k := (k * 0xcc9e2d51) % 2 ^ 32
    let k := rotl32 k 15
    let k := (k * 0x1b873593) % 2 ^ 32
    h ^^^ k

/-- MurmurHash3 32-bit finalization mix. -/
def fmix32 (h0 : Nat) : Nat :=
  let h := h0 ^^^ (h0 >>> 16)
  let h := (h * 0x85ebca6b) % 2 ^ 32
  let h := h ^^^ (h >>> 13)
  let h := (h * 0xc2b2ae35) % 2 ^ 32
  h ^^^ (h >>> 16)

/-- Modelled from the spec: `murmurhash3` is imported from
`src/lib/crypto`, a module absent from the source tree; the spec
describes it as "a 32-bit non-cryptographic hash (consistent-hash
family, e.g. Murmur3 variant)".  Modelled as the standard MurmurHash3
x86 32-bit algorithm with seed 0 over the UTF-8 bytes of the input. -/
def murmurhash3 (s : String) : Nat :=
  let bytes := utf8Bytes s
  fmix32 (murmurBody 0 bytes ^^^ bytes.length % 2 ^ 32)

/-- `calculateRollout`: percentage gate via consistent hashing of
`"<flagKey>:<userId>"` into a bucket in `[0, 99]`. -/
def calculateRollout (flagKey userId : String) (percentage : Int) : Bool :=
  if 100 ≤ percentage then true
  else if percentage ≤ 0 then false
  else
    let hashInput := flagKey ++ ":" ++ userId
    let hash := murmurhash3 hashInput
    let bucket := hash % 100
    decide ((bucket : Int) < percentage)

-- ── Stored records and single-flag evaluation ───────────────────────────────

/-- One targeting rule (interface `StoredRule`). -/
structure StoredRule where
  id : String
  priority : Int
  conditions : List FlagCondition
  value : JsValue
  rolloutPercentage : Option Int

/-- One stored flag with its rules (interface `StoredFlag`).  `enabled`
is nullable in the database, hence `Option Bool`. -/
structure StoredFlag where
  id : String
  key : String
  name : String
  description : Option String
  type : Option String
  defaultValue : JsValue
  enabled : Option Bool
  rules : List StoredRule

/-- Result of evaluating one flag (interface `FlagEvaluationResult`). -/
structure FlagEvaluationResult where
  key : String
  value : JsValue
  source : String
  ruleId : Option String

/-- JavaScript truthiness of the nullable `enabled` column:
`null`/`undefined` and `false` are falsy. -/
def boolTruthy : Option Bool → Bool
  | some b => b
  | none => false

/-- `context.userId ?? 'anonymous'`, stringified as the template literal
in `calculateRollout`'s hash input does. -/
def ctxUserId (context : FlagEvaluationContext) : String :=
  match lookupField context "userId" with
  | none => "anonymous"
  | some .null => "anonymous"
  | some v => toStr v

/-- The rollout check of the rule-scanning loop: a rule is rejected when
it carries a `rolloutPercentage` and `calculateRollout` refuses the
(user, percentage) pair; a rule without a percentage is never rejected. -/
def rolloutRejects (flag : StoredFlag) (context : FlagEvaluationContext)
    (rule : StoredRule) : Bool :=
  match rule.rolloutPercentage with
  | some p => !calculateRollout flag.key (ctxUserId context) p
  | none => false

/-- The rule-scanning loop of `evaluateSingleFlag`: skip a rule when its
conditions fail or its rollout gate rejects, return the first survivor,
fall through to the default result. -/
def evalRules (eng : RegexEngine) (flag : StoredFlag)
    (context : FlagEvaluationContext) : List StoredRule → FlagEvaluationResult
  | [] => { key := flag.key, value := flag.defaultValue, source := "default", ruleId := none }
  | rule :: rest =>
    if !matchesConditions eng context rule.conditions then
      evalRules eng flag context rest
    else if rolloutRejects flag context rule then
      evalRules eng flag context rest
    else
      { key := flag.key, value := rule.value, source := "rule", ruleId := some rule.id }

/-- The ascending-by-priority comparison used to sort rules.  The
source sorts with the comparator `a.priority - b.priority`;
JavaScript's `Array.prototype.sort` is stable, and the unique stable
ascending sort is merge sort by `≤` on the priority. -/
def priorityLe (a b : StoredRule) : Bool :=
  decide (a.priority ≤ b.priority)

/-- `evaluateSingleFlag`: disabled flags short-circuit to the default
value; otherwise the rules are stable-sorted ascending by priority and
scanned for the first survivor. -/
def evaluateSingleFlag (eng : RegexEngine) (flag : StoredFlag)
    (context : FlagEvaluationContext) : FlagEvaluationResult :=
  if !boolTruthy flag.enabled then
    { key := flag.key, value := flag.defaultValue, source := "disabled", ruleId := none }
  else
    evalRules eng flag context (flag.rules.mergeSort priorityLe)

/-- `evaluateFlag` after the flag set has been loaded: look the flag up
by key; unknown keys produce a null-valued default result. -/
def evaluateFlag (allFlags : List StoredFlag) (eng : RegexEngine)
    (flagKey : String) (context : FlagEvaluationContext) : FlagEvaluationResult :=
  match allFlags.find? (fun f => f.key = flagKey) with
  | none => { key := flagKey, value := .null, source := "default", ruleId := none }
  | some flag => evaluateSingleFlag eng flag context

-- ── Cache model (lib/redis.ts helpers over an abstract key-value state) ─────

/-- The shared cache state: an association list from keys to values
(first binding wins; the mutators below keep at most one binding per
key).  TTL expiry is a property of real time and is not modelled. -/
def Cache (α : Type) : Type := List (String × α)

/-- `getCache`: look a key up. -/
def getCache (cache : Cache α) (key : String) : Option α :=
  (cache.find? (fun e => e.1 = key)).map (fun e => e.2)

/-- `setCache`: bind a key, replacing any previous binding.  The TTL
argument is carried but expiry is not modelled. -/
def setCache (cache : Cache α) (key : String) (value : α) (_ttlSeconds : Nat) : Cache α :=
  (key, value) :: cache.filter (fun e => !(e.1 = key : Bool))

/-- `deleteCache`: remove a key's binding. -/
def deleteCache (cache : Cache α) (key : String) : Cache α :=
  cache.filter (fun e => !(e.1 = key : Bool))

/-- Redis glob matching over characters: `*` matches any (possibly
empty) sequence, `?` any single character, anything else itself.
Character classes do not occur in this codebase's patterns. -/
def globMatch : List Char → List Char → Bool
  | [], s => s.isEmpty
  | p :: ps, s =>
    if p = '*' then
      globMatch ps s ||
        (match s with
         | [] => false
         | _ :: s' => globMatch (p :: ps) s')
    else
      match s with
      | [] => false
      | c :: s' => if p = '?' then globMatch ps s' else p = c && globMatch ps s'
termination_by ps s => (ps.length, s.length)

/-- `deleteCachePattern`: remove every binding whose key matches the
glob pattern (SCAN + DEL over all matching keys). -/
def deleteCachePattern (cache : Cache α) (pat : String) : Cache α :=
  cache.filter (fun e => !globMatch pat.data e.1.data)

/-- The fixed global snapshot key (`ALL_FLAGS_CACHE_KEY`). -/
def ALL_FLAGS_CACHE_KEY : String := "flags:all"

/-- `ALL_FLAGS_CACHE_TTL` (seconds). -/
def ALL_FLAGS_CACHE_TTL : Nat := 300

/-- `invalidateFlagCaches`: drop the global snapshot and every per-user
bulk entry. -/
def invalidateFlagCaches (cache : Cache α) : Cache α :=
  deleteCachePattern (deleteCache cache ALL_FLAGS_CACHE_KEY) "flags:user:*"

/-- `invalidateUserFlagCache`: drop one user's bulk entry. -/
def invalidateUserFlagCache (cache : Cache α) (userId : String) : Cache α :=
  deleteCache cache ("flags:user:" ++ userId)

-- ── Flag store loader (flag.service.ts: loadAllFlags) ───────────────────────

/-- One row of the `feature_flags` table as the loader selects it. -/
structure FlagRow where
  id : String
  key : String
  name : String
  description : Option String
  type : Option String
  defaultValue : JsValue
  enabled : Option Bool

/-- One row of the `feature_flag_rules` table as the loader selects it
(the query orders by `priority`; rows are taken as fetched). -/
structure RuleRow where
  id : String
  flagId : String
  priority : Int
  conditions : Option (List FlagCondition)
  value : JsValue
  rolloutPercentage : Option Int

/-- The per-rule projection of the loader's grouping loop
(`rule.conditions ?? []`). -/
def toStoredRule (r : RuleRow) : StoredRule :=
  { id := r.id
    priority := r.priority
    conditions := r.conditions.getD []
    value := r.value
    rolloutPercentage := r.rolloutPercentage }

/-- Assemble `StoredFlag`s: the source groups rule rows into a map by
flag id (appending in encounter order) and attaches `get(id) ?? []` to
each flag; per flag id that is exactly the in-order filter of the rows. -/
def buildStoredFlags (flagRows : List FlagRow) (ruleRows : List RuleRow) :
    List StoredFlag :=
  flagRows.map (fun flag =>
    { id := flag.id
      key := flag.key
      name := flag.name
      description := flag.description
      type := flag.type
      defaultValue := flag.defaultValue
      enabled := flag.enabled
      rules := (ruleRows.filter (fun r => r.flagId = flag.id)).map toStoredRule })

/-- `loadAllFlags`, with the two backing-store fetches supplied as
`Except`-valued results (the flag query runs first; a failure there
means the rule query is never consulted).  Returns the loader's result
together with the cache state after the call. -/
def loadAllFlags (cache : Cache (List StoredFlag))
    (flagFetch : Except String (List FlagRow))
    (ruleFetch : Except String (List RuleRow)) :
    Except String (List StoredFlag) × Cache (List StoredFlag) :=
  match getCache cache ALL_FLAGS_CACHE_KEY with
  | some cached => (.ok cached, cache)
  | none =>
    match flagFetch with
    | .error e => (.error e, cache)
    | .ok flagRows =>
      match ruleFetch with
      | .error e => (.error e, cache)
      | .ok ruleRows =>
        let flags := buildStoredFlags flagRows ruleRows
        (.ok flags, setCache cache ALL_FLAGS_CACHE_KEY flags ALL_FLAGS_CACHE_TTL)

-- ── Specification-side vocabulary used by the theorems ──────────────────────

/-- Is the value of object type (a mapping in the path-traversal sense:
JavaScript objects and arrays both answer `typeof v === 'object'`)? -/
def isMapping : JsValue → Bool
  | .obj _ => true
  | .arr _ => true
  | _ => false

/-- Is the operand a sequence (a JavaScript array)? -/
def isArr : JsValue → Bool
  | .arr _ => true
  | _ => false

/-- The operators the matcher's switch knows. -/
def knownOperators : List String :=
  ["eq", "neq", "gt", "gte", "lt", "lte", "in", "not_in", "contains", "regex"]

/-- Strict component-wise numeric order on parsed semver triplets:
major first, then minor, then patch. -/
def semverLtSpec (a b : SemverParts) : Prop :=
  a.major < b.major ∨
    (a.major = b.major ∧
      (a.minor < b.minor ∨ (a.minor = b.minor ∧ a.patch < b.patch)))

/-- Are both sides strings that each parse as a semver triplet?  (The
guard of the semver branch of the ordering operators.) -/
def bothSemverStrings : JsValue → JsValue → Bool
  | .str s, .str t => (parseSemver s).isSome && (parseSemver t).isSome
  | _, _ => false

/-- The numeric comparison a given ordering operator performs between
the coerced context value (first argument) and operand (second). -/
def numTestFor (op : String) : ℚ → ℚ → Bool := fun x y =>
  if op = "gt" then decide (y < x)
  else if op = "gte" then decide (y ≤ x)
  else if op = "lt" then decide (x < y)
  else decide (x ≤ y)

/-- A rule survives both checks of the scanning loop: all its conditions
match, and its rollout gate passes — the gate applies only when
`rolloutPercentage` is present and hashes the context's user id (or the
anonymous sentinel). -/
def ruleSurvives (eng : RegexEngine) (flag : StoredFlag)
    (context : FlagEvaluationContext) (rule : StoredRule) : Bool :=
  matchesConditions eng context rule.conditions &&
    (match rule.rolloutPercentage with
     | none => true
     | some p => calculateRollout flag.key (ctxUserId context) p)

-- ── Concrete fixtures used by the witness theorems ──────────────────────────

/-- A regex facility on which every pattern fails to compile. -/
def engFail : RegexEngine := fun _ => none

/-- A flag with no rules. -/
def exampleFlag : StoredFlag :=
  { id := "f1"
    key := "new_editor_ui"
    name := "New editor UI"
    description := none
    type := none
    defaultValue := .bool false
    enabled := some true
    rules := [] }

/-- A flag whose nullable `enabled` column is `null`, with a rule that
would match every context if it were scanned. -/
def nullEnabledFlag : StoredFlag :=
  { id := "f2"
    key := "dark_mode"
    name := "Dark mode"
    description := none
    type := none
    defaultValue := .bool false
    enabled := none
    rules := [{ id := "r9", priority := 0, conditions := [], value := .bool true,
                rolloutPercentage := none }] }

/-- An enabled flag with two unconditioned rules whose priorities arrive
out of order, as in the spec's priority-ordering test. -/
def twoRuleFlag : StoredFlag :=
  { id := "f3"
    key := "checkout_flow"
    name := "Checkout flow"
    description := none
    type := none
    defaultValue := .str "control"
    enabled := some true
    rules := [{ id := "r10", priority := 10, conditions := [], value := .str "variant_b",
                rolloutPercentage := none },
              { id := "r5", priority := 5, conditions := [], value := .str "variant_a",
                rolloutPercentage := none }] }

end FlagService

namespace FlagService

-- ── Theorems ────────────────────────────────────────────────────────────────

/-- C2: `calculateRollout` is always true for `percentage ≥ 100`, always
false for `percentage ≤ 0`, and for percentages strictly between 0
and 100 it passes exactly when the murmur hash of
`"<flagKey>:<userId>"` taken modulo 100 — a bucket in `[0, 99]` — is
strictly below the percentage. -/
theorem calculateRollout_bucket_gate (flagKey userId : String) (percentage : Int) :
    (100 ≤ percentage → calculateRollout flagKey userId percentage = true) ∧
    (percentage ≤ 0 → calculateRollout flagKey userId percentage = false) ∧
    (0 < percentage → percentage < 100 →
      (calculateRollout flagKey userId percentage = true ↔
        ((murmurhash3 (flagKey ++ ":" ++ userId) % 100 : Nat) : Int) < percentage)) ∧
    murmurhash3 (flagKey ++ ":" ++ userId) % 100 < 100 := by
  refine ⟨?_, ?_, ?_, Nat.mod_lt _ (by omega)⟩
  · intro h
    simp [calculateRollout, h]
  · intro h
    have h2 : ¬ (100 ≤ percentage) := by omega
    simp [calculateRollout, h, h2]
  · intro h1 h2
    have ha : ¬ (100 ≤ percentage) := by omega
    have hb : ¬ (percentage ≤ 0) := by omega
    simp [calculateRollout, ha, hb]

/-- Witness for C2 at concrete inputs: 150% always passes, −1% never
does, and at 50% the gate agrees with the hash bucket. -/
theorem calculateRollout_bucket_gate_witness :
    calculateRollout "video_4k" "u1" 150 = true ∧
    calculateRollout "video_4k" "u1" (-1) = false ∧
    (calculateRollout "video_4k" "u1" 50 = true ↔
      ((murmurhash3 ("video_4k" ++ ":" ++ "u1") % 100 : Nat) : Int) < 50) :=
  ⟨(calculateRollout_bucket_gate "video_4k" "u1" 150).1 (by decide),
   (calculateRollout_bucket_gate "video_4k" "u1" (-1)).2.1 (by decide),
   (calculateRollout_bucket_gate "video_4k" "u1" 50).2.2.1 (by decide) (by decide)⟩

/-- C5 counterexample: when an input fails to parse, `compareSemver`
still returns an ordering — the same `-1` a genuine semver comparison
produces — rather than a distinguishable "not a semver" outcome; the
distinguishable outcome exists only in `parseSemver`'s `none`. -/
theorem compareSemver_fallback_returns_ordering :
    parseSemver "abc" = none ∧
    compareSemver "abc" "xyz" = -1 ∧
    compareSemver "1.0.0" "2.0.0" = -1 := by
  have hab : ("abc" : String) < "xyz" := String.lt_iff_toList_lt.mpr (by decide)
  refine ⟨by decide, ?_, by decide⟩
  simp only [compareSemver, show parseSemver "abc" = none from by decide,
    show parseSemver "xyz" = none from by decide]
  rw [if_pos hab]

/-- C5 (amended): `compareSemver` is total and always returns one of the
orderings `-1`, `0`, `1`; when either input fails to parse as a
`major.minor.patch` triplet it falls back to lexicographic string
comparison instead of signalling — the "not a semver" outcome is
communicated by `parseSemver` returning `none`, which the caller
consults directly. -/
theorem compareSemver_total_string_fallback (a b : String) :
    ((parseSemver a = none ∨ parseSemver b = none) →
      compareSemver a b = if a < b then -1 else if b < a then 1 else 0) ∧
    (compareSemver a b = -1 ∨ compareSemver a b = 0 ∨ compareSemver a b = 1) := by
  constructor
  · intro h
    cases hpa : parseSemver a with
    | none => simp [compareSemver, hpa]
    | some pa =>
      cases hpb : parseSemver b with
      | none => simp [compareSemver, hpa, hpb]
      | some pb => rcases h with h | h <;> simp_all
  · cases hpa : parseSemver a with
    | none => simp only [compareSemver, hpa]; split_ifs <;> simp
    | some pa =>
      cases hpb : parseSemver b with
      | none => simp only [compareSemver, hpa, hpb]; split_ifs <;> simp
      | some pb => simp only [compareSemver, hpa, hpb]; split_ifs <;> simp

/-- Witness for the amended C5 at a concrete non-semver input. -/
theorem compareSemver_total_string_fallback_witness :
    compareSemver "abc" "xyz" =
      if ("abc" : String) < "xyz" then -1 else if ("xyz" : String) < "abc" then 1 else 0 :=
  (compareSemver_total_string_fallback "abc" "xyz").1 (Or.inl (by decide))

/-- C6: when no loaded flag carries the requested key, `evaluateFlag`
returns `{key, value: null, source: default}`; unknown flags are not an
error (the function is total). -/
theorem evaluateFlag_unknown_key (allFlags : List StoredFlag) (eng : RegexEngine)
    (flagKey : String) (context : FlagEvaluationContext)
    (h : ∀ f ∈ allFlags, f.key ≠ flagKey) :
    evaluateFlag allFlags eng flagKey context =
      { key := flagKey, value := .null, source := "default", ruleId := none } := by
  have hfind : allFlags.find? (fun f => f.key = flagKey) = none := by
    rw [List.find?_eq_none]
    intro f hf
    simpa using h f hf
  simp [evaluateFlag, hfind]

/-- Witness for C6: a key absent from a non-empty flag set. -/
theorem evaluateFlag_unknown_key_witness :
    evaluateFlag [exampleFlag] engFail "missing_flag" [] =
      { key := "missing_flag", value := .null, source := "default", ruleId := none } :=
  evaluateFlag_unknown_key [exampleFlag] engFail "missing_flag" []
    (by intro f hf; rw [List.mem_singleton] at hf; subst hf; decide)

/-- C9: on a cache miss, a failure of either backing-store fetch makes
`loadAllFlags` propagate that error and leave the cache untouched. -/
theorem loadAllFlags_atomic_on_failure (cache : Cache (List StoredFlag))
    (flagFetch : Except String (List FlagRow)) (ruleFetch : Except String (List RuleRow))
    (e : String) (hmiss : getCache cache ALL_FLAGS_CACHE_KEY = none) :
    (flagFetch = .error e → loadAllFlags cache flagFetch ruleFetch = (.error e, cache)) ∧
    (∀ flagRows, flagFetch = .ok flagRows → ruleFetch = .error e →
      loadAllFlags cache flagFetch ruleFetch = (.error e, cache)) := by
  constructor
  · intro h
    subst h
    simp [loadAllFlags, hmiss]
  · intro flagRows h1 h2
    subst h1
    subst h2
    simp [loadAllFlags, hmiss]

/-- Witness for C9 on an empty cache with a failing flag fetch. -/
theorem loadAllFlags_atomic_on_failure_witness :
    loadAllFlags ([] : Cache (List StoredFlag)) (.error "store down") (.ok []) =
      (.error "store down", []) :=
  (loadAllFlags_atomic_on_failure [] (.error "store down") (.ok []) "store down" rfl).1 rfl

/-- C10: a flag whose nullable `enabled` column is `null` evaluates
exactly like `enabled = false`: the default value with source
`disabled`, with no rule consulted. -/
theorem null_enabled_behaves_as_disabled (eng : RegexEngine) (flag : StoredFlag)
    (context : FlagEvaluationContext) (h : flag.enabled = none) :
    evaluateSingleFlag eng flag context =
      { key := flag.key, value := flag.defaultValue, source := "disabled", ruleId := none } ∧
    evaluateSingleFlag eng flag context =
      evaluateSingleFlag eng { flag with enabled := some false } context := by
  constructor <;> simp [evaluateSingleFlag, h, boolTruthy]

/-- Witness for C10: the null-enabled fixture ignores its always-matching
rule. -/
theorem null_enabled_behaves_as_disabled_witness :
    evaluateSingleFlag engFail nullEnabledFlag [] =
      { key := "dark_mode", value := .bool false, source := "disabled", ruleId := none } :=
  (null_enabled_behaves_as_disabled engFail nullEnabledFlag [] rfl).1

/-- C3: dotted-path resolution walks nested mapping lookups and yields an
absent value as soon as the walk starts from `undefined`, meets a
non-mapping intermediate value with path segments remaining, or misses a
key; and the matcher lets an absent context value satisfy exactly the
operators `neq` and `not_in`. -/
theorem path_resolution_absent_semantics (eng : RegexEngine) :
    (∀ (context : FlagEvaluationContext) (field : String),
       getContextValue context field = walkPath (some (.obj context)) (field.splitOn ".")) ∧
    (∀ ps : List String, walkPath none ps = none) ∧
    (∀ (v : JsValue) (ps : List String), ps ≠ [] → isMapping v = false →
       walkPath (some v) ps = none) ∧
    (∀ (fields : List (String × JsValue)) (part : String) (rest : List String),
       lookupField fields part = none → walkPath (some (.obj fields)) (part :: rest) = none) ∧
    (∀ (cv : Option JsValue) (cond : FlagCondition), isAbsent cv = true →
       matchesSingleCondition eng cv cond =
         (cond.operator = "neq" || cond.operator = "not_in")) := by
  have hnone : ∀ ps : List String, walkPath none ps = none := by
    intro ps
    cases ps <;> rfl
  refine ⟨fun _ _ => rfl, hnone, ?_, ?_, ?_⟩
  · intro v ps hne hm
    cases ps with
    | nil => exact absurd rfl hne
    | cons p rest => cases v <;> simp_all [isMapping, walkPath]
  · intro fields part rest hl
    rw [walkPath, hl]
    exact hnone rest
  · intro cv cond h
    simp [matchesSingleCondition, h]

/-- Witness for C3: a primitive intermediate value yields absent, and an
absent `x.y` satisfies `neq` but not `eq`. -/
theorem path_resolution_absent_semantics_witness :
    walkPath (some (.str "pro")) ["y"] = none ∧
    matchesSingleCondition engFail none ⟨"x.y", "neq", .str "a"⟩ = true ∧
    matchesSingleCondition engFail none ⟨"x.y", "eq", .str "a"⟩ = false :=
  ⟨(path_resolution_absent_semantics engFail).2.2.1 (.str "pro") ["y"] (by simp) rfl,
   by simpa using
     (path_resolution_absent_semantics engFail).2.2.2.2 none ⟨"x.y", "neq", .str "a"⟩ rfl,
   by simpa using
     (path_resolution_absent_semantics engFail).2.2.2.2 none ⟨"x.y", "eq", .str "a"⟩ rfl⟩

/-- C7: with a present context value, malformed inputs collapse to a safe
boolean: a pattern the regex facility cannot compile makes `regex` false,
a non-sequence operand makes `in` false and `not_in` true, and an
operator outside the known set falls to the switch default `false` —
matching is total by construction. -/
theorem matcher_absorbs_malformed (eng : RegexEngine) (cv : JsValue) (cond : FlagCondition)
    (hcv : isAbsent (some cv) = false) :
    (cond.operator = "regex" → eng (toStr cond.value) = none →
       matchesSingleCondition eng (some cv) cond = false) ∧
    (cond.operator = "in" → isArr cond.value = false →
       matchesSingleCondition eng (some cv) cond = false) ∧
    (cond.operator = "not_in" → isArr cond.value = false →
       matchesSingleCondition eng (some cv) cond = true) ∧
    (cond.operator ∉ knownOperators → matchesSingleCondition eng (some cv) cond = false) := by
  obtain ⟨f, op, v⟩ := cond
  refine ⟨?_, ?_, ?_, ?_⟩
  · intro hop hreg
    subst hop
    simp [matchesSingleCondition, hcv, matchesPresent, hreg]
  · intro hop harr
    subst hop
    cases v <;> simp_all [matchesSingleCondition, hcv, matchesPresent, isArr]
  · intro hop harr
    subst hop
    cases v <;> simp_all [matchesSingleCondition, hcv, matchesPresent, isArr]
  · intro hop
    simp only [knownOperators, List.mem_cons, List.not_mem_nil, or_false, not_or] at hop
    obtain ⟨h1, h2, h3, h4, h5, h6, h7, h8, h9, h10⟩ := hop
    simp [matchesSingleCondition, hcv, matchesPresent, h1, h2, h3, h4, h5, h6, h7, h8, h9, h10]

/-- Witness for C7 at concrete malformed inputs. -/
theorem matcher_absorbs_malformed_witness :
    matchesSingleCondition engFail (some (.str "hello")) ⟨"f", "regex", .str "("⟩ = false ∧
    matchesSingleCondition engFail (some (.str "pro")) ⟨"tier", "in", .str "notalist"⟩ = false ∧
    matchesSingleCondition engFail (some (.str "pro")) ⟨"tier", "not_in", .str "notalist"⟩ = true ∧
    matchesSingleCondition engFail (some (.str "pro")) ⟨"tier", "matches", .str "p.*"⟩ = false :=
  ⟨(matcher_absorbs_malformed engFail (.str "hello") ⟨"f", "regex", .str "("⟩ rfl).1 rfl rfl,
   (matcher_absorbs_malformed engFail (.str "pro") ⟨"tier", "in", .str "notalist"⟩ rfl).2.1
     rfl rfl,
   (matcher_absorbs_malformed engFail (.str "pro") ⟨"tier", "not_in", .str "notalist"⟩ rfl).2.2.1
     rfl rfl,
   (matcher_absorbs_malformed engFail (.str "pro") ⟨"tier", "matches", .str "p.*"⟩ rfl).2.2.2
     (by decide)⟩

/-- `getCache` on a cons steps through the head binding. -/
theorem getCache_cons {α : Type} (e : String × α) (l : Cache α) (k : String) :
    getCache (e :: l) k = if e.1 = k then some e.2 else getCache l k := by
  by_cases h : e.1 = k <;> simp [getCache, List.find?, h]

/-- `getCache` after filtering by a predicate on the key alone: the
lookup survives exactly when the key satisfies the predicate. -/
theorem getCache_filter_key {α : Type} (cache : Cache α) (q : String → Bool) (k : String) :
    getCache (cache.filter (fun e => q e.1)) k =
      if q k then getCache cache k else none := by
  induction cache with
  | nil =>
    simp only [List.filter_nil]
    split <;> rfl
  | cons e rest ih =>
    rw [List.filter_cons]
    by_cases hq : q e.1
    · rw [if_pos hq, getCache_cons, getCache_cons]
      by_cases hek : e.1 = k
      · have hqk : q k = true := hek ▸ hq
        rw [if_pos hek, if_pos hek, if_pos hqk]
      · rw [if_neg hek, if_neg hek, ih]
    · rw [if_neg hq, ih, getCache_cons]
      by_cases hek : e.1 = k
      · rw [← hek]
        simp [hq]
      · rw [if_neg hek]

/-- `deleteCache` removes exactly the requested key. -/
theorem getCache_deleteCache {α : Type} (cache : Cache α) (key k : String) :
    getCache (deleteCache cache key) k = if k = key then none else getCache cache k := by
  have h := getCache_filter_key cache (fun s => !(s = key : Bool)) k
  simp only [deleteCache]
  rw [h]
  by_cases hk : k = key <;> simp [hk]

/-- `deleteCachePattern` removes exactly the keys matching the glob. -/
theorem getCache_deleteCachePattern {α : Type} (cache : Cache α) (pat k : String) :
    getCache (deleteCachePattern cache pat) k =
      if globMatch pat.data k.data then none else getCache cache k := by
  have h := getCache_filter_key cache (fun s => !globMatch pat.data s.data) k
  simp only [deleteCachePattern]
  rw [h]
  by_cases hk : globMatch pat.data k.data <;> simp [hk]

/-- A bare `*` matches every string. -/
theorem globMatch_star (s : List Char) : globMatch ['*'] s = true := by
  induction s with
  | nil => simp [globMatch]
  | cons c s ih => simp [globMatch, ih]

/-- A pattern `pre*` whose prefix holds no wildcard matches every string
extending `pre`. -/
theorem globMatch_append_star (pre s : List Char)
    (h : ∀ c ∈ pre, c ≠ '*' ∧ c ≠ '?') :
    globMatch (pre ++ ['*']) (pre ++ s) = true := by
  induction pre with
  | nil => simpa using globMatch_star s
  | cons c cs ih =>
    have hc := h c (by simp)
    have hcs : ∀ d ∈ cs, d ≠ '*' ∧ d ≠ '?' := fun d hd => h d (by simp [hd])
    rw [List.cons_append, List.cons_append, globMatch]
    rw [if_neg hc.1]
    simp only [if_neg hc.2]
    simp [ih hcs]

/-- String append acts as list append on the character data. -/
theorem string_data_append (a b : String) : (a ++ b).data = a.data ++ b.data := by
  cases a
  cases b
  rfl

/-- C8: `invalidateUserFlagCache userId` deletes exactly the entry under
`flags:user:<userId>` — any other key, in particular the global snapshot
and other users' entries, reads unchanged — while `invalidateFlagCaches`
deletes the entry under the fixed key `flags:all` together with every
key matching the pattern `flags:user:*` (and per-user keys do match that
pattern), leaving all remaining entries unchanged. -/
theorem cache_invalidation_frame {α : Type} (cache : Cache α) (userId k uid2 : String) :
    (getCache (invalidateUserFlagCache cache userId) k =
       if k = "flags:user:" ++ userId then none else getCache cache k) ∧
    (getCache (invalidateUserFlagCache cache userId) ("flags:user:" ++ uid2) =
       if uid2 = userId then none else getCache cache ("flags:user:" ++ uid2)) ∧
    (getCache (invalidateFlagCaches cache) k =
       if k = "flags:all" ∨ globMatch "flags:user:*".data k.data then none
       else getCache cache k) ∧
    globMatch "flags:user:*".data ("flags:user:" ++ uid2).data = true := by
  have hinj : ("flags:user:" ++ uid2 = "flags:user:" ++ userId) ↔ uid2 = userId := by
    constructor
    · intro hh
      have h2 := congrArg String.data hh
      rw [string_data_append, string_data_append] at h2
      have h3 := List.append_cancel_left h2
      cases uid2
      cases userId
      exact congrArg String.mk (by simpa using h3)
    · intro hh
      rw [hh]
  refine ⟨getCache_deleteCache cache ("flags:user:" ++ userId) k, ?_, ?_, ?_⟩
  · show getCache (deleteCache cache ("flags:user:" ++ userId)) ("flags:user:" ++ uid2) = _
    rw [getCache_deleteCache]
    by_cases h : uid2 = userId
    · rw [if_pos (hinj.mpr h), if_pos h]
    · rw [if_neg (fun hh => h (hinj.mp hh)), if_neg h]
  · show getCache
      (deleteCachePattern (deleteCache cache ALL_FLAGS_CACHE_KEY) "flags:user:*") k = _
    rw [getCache_deleteCachePattern, getCache_deleteCache]
    simp only [ALL_FLAGS_CACHE_KEY]
    by_cases hg : globMatch "flags:user:*".data k.data <;>
      by_cases hk : k = "flags:all" <;> simp [hg, hk]
  · rw [string_data_append,
      show "flags:user:*".data = "flags:user:".data ++ ['*'] from rfl]
    exact globMatch_append_star _ _ (by decide)

/-- When both inputs parse, the sign of `compareSemver` decides the
component-wise numeric order of the parsed triplets. -/
theorem compareSemver_parsed (a b : String) (pa pb : SemverParts)
    (ha : parseSemver a = some pa) (hb : parseSemver b = some pb) :
    (compareSemver a b < 0 ↔ semverLtSpec pa pb) ∧
    (0 < compareSemver a b ↔ semverLtSpec pb pa) ∧
    (compareSemver a b ≤ 0 ↔ ¬ semverLtSpec pb pa) ∧
    (0 ≤ compareSemver a b ↔ ¬ semverLtSpec pa pb) := by
  simp only [compareSemver, ha, hb, semverLtSpec]
  split_ifs <;> refine ⟨?_, ?_, ?_, ?_⟩ <;> omega

/-- When the two sides are not both semver strings, an ordering operator
reduces to the numeric comparison of the `Number()`-coerced sides. -/
theorem orderingMatch_not_semver (semTest : Int → Bool) (numTest : ℚ → ℚ → Bool)
    (cv condv : JsValue) (hboth : bothSemverStrings cv condv = false) :
    orderingMatch semTest numTest cv condv =
      numCompare numTest (toNum cv) (toNum condv) := by
  cases cv <;> cases condv <;>
    simp_all [orderingMatch, bothSemverStrings, Bool.and_eq_true]

/-- C4: for a present context value under an ordering operator, two
string sides that both parse as semver are decided by the component-wise
numeric order of their triplets (so `1.10.0` is greater than `1.9.0`);
in every other case both sides are coerced with `Number()` and compared
numerically (so `"10"` is greater than `"9"`). -/
theorem ordering_semver_then_numeric (eng : RegexEngine) :
    (∀ (f s t : String) (pa pb : SemverParts),
       parseSemver s = some pa → parseSemver t = some pb →
       ((matchesSingleCondition eng (some (.str s)) ⟨f, "gt", .str t⟩ = true ↔
           semverLtSpec pb pa) ∧
        (matchesSingleCondition eng (some (.str s)) ⟨f, "gte", .str t⟩ = true ↔
           ¬ semverLtSpec pa pb) ∧
        (matchesSingleCondition eng (some (.str s)) ⟨f, "lt", .str t⟩ = true ↔
           semverLtSpec pa pb) ∧
        (matchesSingleCondition eng (some (.str s)) ⟨f, "lte", .str t⟩ = true ↔
           ¬ semverLtSpec pb pa))) ∧
    (∀ (f op : String) (cv condv : JsValue),
       (op = "gt" ∨ op = "gte" ∨ op = "lt" ∨ op = "lte") →
       isAbsent (some cv) = false →
       bothSemverStrings cv condv = false →
       matchesSingleCondition eng (some cv) ⟨f, op, condv⟩ =
         numCompare (numTestFor op) (toNum cv) (toNum condv)) ∧
    matchesSingleCondition eng (some (.str "1.10.0")) ⟨"appVersion", "gt", .str "1.9.0"⟩
      = true ∧
    matchesSingleCondition eng (some (.str "10")) ⟨"appVersion", "gt", .str "9"⟩ = true := by
  have hpart1 : ∀ (f s t : String) (pa pb : SemverParts),
      parseSemver s = some pa → parseSemver t = some pb →
      ((matchesSingleCondition eng (some (.str s)) ⟨f, "gt", .str t⟩ = true ↔
          semverLtSpec pb pa) ∧
       (matchesSingleCondition eng (some (.str s)) ⟨f, "gte", .str t⟩ = true ↔
          ¬ semverLtSpec pa pb) ∧
       (matchesSingleCondition eng (some (.str s)) ⟨f, "lt", .str t⟩ = true ↔
          semverLtSpec pa pb) ∧
       (matchesSingleCondition eng (some (.str s)) ⟨f, "lte", .str t⟩ = true ↔
          ¬ semverLtSpec pb pa)) := by
    intro f s t pa pb ha hb
    have hcmp := compareSemver_parsed s t pa pb ha hb
    refine ⟨?_, ?_, ?_, ?_⟩
    · simpa [matchesSingleCondition, isAbsent, matchesPresent, orderingMatch, ha, hb]
        using hcmp.2.1
    · simpa [matchesSingleCondition, isAbsent, matchesPresent, orderingMatch, ha, hb]
        using hcmp.2.2.2
    · simpa [matchesSingleCondition, isAbsent, matchesPresent, orderingMatch, ha, hb]
        using hcmp.1
    · simpa [matchesSingleCondition, isAbsent, matchesPresent, orderingMatch, ha, hb]
        using hcmp.2.2.1
  have hpart2 : ∀ (f op : String) (cv condv : JsValue),
      (op = "gt" ∨ op = "gte" ∨ op = "lt" ∨ op = "lte") →
      isAbsent (some cv) = false →
      bothSemverStrings cv condv = false →
      matchesSingleCondition eng (some cv) ⟨f, op, condv⟩ =
        numCompare (numTestFor op) (toNum cv) (toNum condv) := by
    intro f op cv condv hop hcv hboth
    rcases hop with hop | hop | hop | hop <;> subst hop
    · have h1 : matchesSingleCondition eng (some cv) ⟨f, "gt", condv⟩ =
          orderingMatch (fun r => decide (0 < r)) (fun x y => decide (y < x)) cv condv := by
        simp [matchesSingleCondition, hcv, matchesPresent]
      rw [h1, orderingMatch_not_semver _ _ _ _ hboth]
      rfl
    · have h1 : matchesSingleCondition eng (some cv) ⟨f, "gte", condv⟩ =
          orderingMatch (fun r => decide (0 ≤ r)) (fun x y => decide (y ≤ x)) cv condv := by
        simp [matchesSingleCondition, hcv, matchesPresent]
      rw [h1, orderingMatch_not_semver _ _ _ _ hboth]
      rfl
    · have h1 : matchesSingleCondition eng (some cv) ⟨f, "lt", condv⟩ =
          orderingMatch (fun r => decide (r < 0)) (fun x y => decide (x < y)) cv condv := by
        simp [matchesSingleCondition, hcv, matchesPresent]
      rw [h1, orderingMatch_not_semver _ _ _ _ hboth]
      rfl
    · have h1 : matchesSingleCondition eng (some cv) ⟨f, "lte", condv⟩ =
          orderingMatch (fun r => decide (r ≤ 0)) (fun x y => decide (x ≤ y)) cv condv := by
        simp [matchesSingleCondition, hcv, matchesPresent]
      rw [h1, orderingMatch_not_semver _ _ _ _ hboth]
      rfl
  refine ⟨hpart1, hpart2, ?_, ?_⟩
  · exact (hpart1 "appVersion" "1.10.0" "1.9.0" ⟨1, 10, 0⟩ ⟨1, 9, 0⟩
      (by decide) (by decide)).1.mpr (by simp [semverLtSpec])
  · rw [hpart2 "appVersion" "gt" (.str "10") (.str "9") (Or.inl rfl) rfl (by decide)]
    decide

/-- Witness for C4: a semver `lt` decided component-wise, and a numeric
`gt` between a number and a numeric string. -/
theorem ordering_semver_then_numeric_witness :
    matchesSingleCondition engFail (some (.str "2.0.0")) ⟨"appVersion", "lt", .str "2.0.1"⟩
      = true ∧
    matchesSingleCondition engFail (some (.num 10)) ⟨"count", "gt", .str "9"⟩ = true := by
  constructor
  · exact ((ordering_semver_then_numeric engFail).1 "appVersion" "2.0.0" "2.0.1"
      ⟨2, 0, 0⟩ ⟨2, 0, 1⟩ (by decide) (by decide)).2.2.1.mpr
      (by simp [semverLtSpec])
  · rw [(ordering_semver_then_numeric engFail).2.1 "count" "gt" (.num 10) (.str "9")
      (Or.inl rfl) rfl (by decide)]
    decide

/-- The two checks of the scanning loop, restated: a rule survives
exactly when its conditions match and the loop's rollout test does not
reject it. -/
theorem ruleSurvives_eq (eng : RegexEngine) (flag : StoredFlag)
    (context : FlagEvaluationContext) (rule : StoredRule) :
    ruleSurvives eng flag context rule =
      (matchesConditions eng context rule.conditions &&
        !rolloutRejects flag context rule) := by
  unfold ruleSurvives rolloutRejects
  cases rule.rolloutPercentage <;> simp

/-- The loop-with-continue of `evaluateSingleFlag` returns the first
surviving rule of the scanned list, or the default result. -/
theorem evalRules_eq_find (eng : RegexEngine) (flag : StoredFlag)
    (context : FlagEvaluationContext) (rs : List StoredRule) :
    evalRules eng flag context rs =
      match rs.find? (ruleSurvives eng flag context) with
      | some rule =>
        { key := flag.key, value := rule.value, source := "rule", ruleId := some rule.id }
      | none =>
        { key := flag.key, value := flag.defaultValue, source := "default",
          ruleId := none } := by
  induction rs with
  | nil => rfl
  | cons r rest ih =>
    have hs := ruleSurvives_eq eng flag context r
    cases hm : matchesConditions eng context r.conditions <;>
      cases hr : rolloutRejects flag context r <;>
      simp_all [evalRules, List.find?]

/-- Merge sort by priority really sorts: the result is pairwise
ascending in `priority`. -/
theorem mergeSort_priority_sorted (l : List StoredRule) :
    (l.mergeSort priorityLe).Pairwise (fun a b => a.priority ≤ b.priority) := by
  have h := @List.sorted_mergeSort _ priorityLe
    (fun a b c hab hbc => by
      simp only [priorityLe, decide_eq_true_eq] at *
      omega)
    (fun a b => by
      simp only [priorityLe, Bool.or_eq_true, decide_eq_true_eq]
      omega)
    l
  exact h.imp (fun hab => by simpa [priorityLe] using hab)

/-- Merge sort by priority is stable: for every priority value, the
rules carrying it appear in the sorted list exactly in their original
relative order. -/
theorem mergeSort_priority_stable (l : List StoredRule) (p : Int) :
    (l.mergeSort priorityLe).filter (fun r => decide (r.priority = p)) =
      l.filter (fun r => decide (r.priority = p)) := by
  have trans : ∀ (a b c : StoredRule), priorityLe a b → priorityLe b c → priorityLe a c := by
    intro a b c hab hbc
    simp only [priorityLe, decide_eq_true_eq] at *
    omega
  have total : ∀ (a b : StoredRule), priorityLe a b || priorityLe b a := by
    intro a b
    simp only [priorityLe, Bool.or_eq_true, decide_eq_true_eq]
    omega
  have hmem : ∀ r ∈ l.filter (fun r => decide (r.priority = p)), r.priority = p := by
    intro r hr
    simpa using (List.mem_filter.mp hr).2
  have hpair : (l.filter (fun r => decide (r.priority = p))).Pairwise
      (fun a b => priorityLe a b) := by
    apply List.pairwise_of_forall_mem_list
    intro a ha b hb
    simp only [priorityLe, decide_eq_true_eq]
    rw [hmem a ha, hmem b hb]
  have h1 := List.sublist_mergeSort trans total hpair (List.filter_sublist l)
  have h2 : (l.filter (fun r => decide (r.priority = p))).filter
      (fun r => decide (r.priority = p)) = l.filter (fun r => decide (r.priority = p)) :=
    List.filter_eq_self.mpr (fun a ha => by simpa using hmem a ha)
  have h3 := h1.filter (fun r => decide (r.priority = p))
  rw [h2] at h3
  have hperm := (List.mergeSort_perm l priorityLe).filter (fun r => decide (r.priority = p))
  exact (h3.eq_of_length hperm.length_eq.symm).symm

/-- C1: single-flag evaluation is the three-outcome state machine: a
falsy enabled gate short-circuits to the default value with source
`disabled` whatever the rules are; otherwise the rules are stable-sorted
ascending by priority and the first rule whose conditions all match and
whose rollout gate passes wins with source `rule`, the default value
with source `default` being emitted when no rule survives. -/
theorem single_flag_state_machine (eng : RegexEngine) (flag : StoredFlag)
    (context : FlagEvaluationContext) :
    (boolTruthy flag.enabled = false →
       ∀ rules2 : List StoredRule,
         evaluateSingleFlag eng { flag with rules := rules2 } context =
           { key := flag.key, value := flag.defaultValue, source := "disabled",
             ruleId := none }) ∧
    (boolTruthy flag.enabled = true →
       ((flag.rules.mergeSort priorityLe).Pairwise (fun a b => a.priority ≤ b.priority) ∧
        (∀ p : Int,
          (flag.rules.mergeSort priorityLe).filter (fun r => decide (r.priority = p)) =
            flag.rules.filter (fun r => decide (r.priority = p))) ∧
        (match (flag.rules.mergeSort priorityLe).find? (ruleSurvives eng flag context) with
         | some rule => evaluateSingleFlag eng flag context =
             { key := flag.key, value := rule.value, source := "rule",
               ruleId := some rule.id }
         | none => evaluateSingleFlag eng flag context =
             { key := flag.key, value := flag.defaultValue, source := "default",
               ruleId := none }))) := by
  constructor
  · intro h rules2
    simp [evaluateSingleFlag, h]
  · intro h
    refine ⟨mergeSort_priority_sorted flag.rules,
      fun p => mergeSort_priority_stable flag.rules p, ?_⟩
    have he : evaluateSingleFlag eng flag context =
        evalRules eng flag context (flag.rules.mergeSort priorityLe) := by
      simp [evaluateSingleFlag, h]
    rw [evalRules_eq_find] at he
    cases hf : (flag.rules.mergeSort priorityLe).find? (ruleSurvives eng flag context) <;>
      rw [hf] at he <;> simpa using he

/-- Witness for C1: rules arriving with priorities `[10, 5]` are scanned
in ascending order, so the priority-5 rule wins. -/
theorem single_flag_state_machine_witness :
    evaluateSingleFlag engFail twoRuleFlag [] =
      { key := "checkout_flow", value := .str "variant_a", source := "rule",
        ruleId := some "r5" } := by
  have h := ((single_flag_state_machine engFail twoRuleFlag []).2 rfl).2.2
  have hsort : twoRuleFlag.rules.mergeSort priorityLe =
      [{ id := "r5", priority := 5, conditions := [], value := .str "variant_a",
         rolloutPercentage := none },
       { id := "r10", priority := 10, conditions := [], value := .str "variant_b",
         rolloutPercentage := none }] := by
    simp [twoRuleFlag, List.mergeSort, priorityLe]
  have hfind : (twoRuleFlag.rules.mergeSort priorityLe).find?
      (ruleSurvives engFail twoRuleFlag []) =
      some { id := "r5", priority := 5, conditions := [], value := .str "variant_a",
             rolloutPercentage := none } := by
    rw [hsort]
    simp [List.find?, ruleSurvives, matchesConditions]
  rw [hfind] at h
  exact h

end FlagService
